import Mathlib

/-!
# ArkiArt backend: register / login / logout and the bearer-token gate

A shallow embedding of `src/server.js`.  The MongoDB collection behind the
`User` model is a list of documents in insertion order; every route is a
function from the collection and the request to the HTTP response and the
collection afterwards.

Library behaviour the routes rely on:

* `req.header(name)` is `undefined` for a missing header; a body field that is
  missing or `null` is falsy.  Both are `none` here.
* A query value `undefined` is sent to MongoDB as `null`, and an equality
  match on `null` selects the documents whose field is `null`.  So
  `findOne (accessToken: undefined)` selects a document whose `accessToken`
  is `null`.
* `findOne` returns the first match in insertion order.
* `save()` validates the document against the schema, for a document loaded
  from the collection as well, and then writes it; a new document is also
  checked against the unique index on `username`.
* `bcrypt` is a parameter (`Bcrypt`); the random salt, the generated
  `ObjectId` and the bytes of `crypto.randomBytes` come with the request
  (`Draw`).
* The collection is always available: thrown connection errors, and the
  `catch` branches only they reach, are outside the model.
-/

set_option maxRecDepth 100000

namespace ArkiArt

/-! ## Data model -/

/-- JavaScript `.length` of a string: its number of UTF-16 code units. -/
def jsLength (s : String) : Nat :=
  (s.toList.map (fun c => if c.toNat < 65536 then 1 else 2)).sum

abbrev ObjectId := String

/-- A stored `User` document (`userSchema`). `accessToken` is `none` when it is `null`. -/
structure Account where
  _id : ObjectId
  username : String
  password : String
  accessToken : Option String
deriving DecidableEq, Repr

/-- The `users` collection, in insertion order. -/
abbrev Store := List Account

/-- The `response` field of a JSON reply. -/
inductive Payload where
  | null
  | text (s : String)
  | user (username : String) (id : ObjectId) (accessToken : Option String)
deriving DecidableEq, Repr

/-- The `error` field of a JSON reply: left out (`undefined`), `null`, or the
`errors` of a Mongoose `ValidationError` as pairs of path and failed validator. -/
inductive ErrorField where
  | absent
  | null
  | details (errors : List (String × String))
deriving DecidableEq, Repr

/-- The JSON reply body; `message` is `none` when the field is left out. -/
structure Body where
  success : Bool
  response : Payload
  message : Option String
  error : ErrorField
deriving DecidableEq, Repr

structure Response where
  status : Nat
  body : Body
deriving DecidableEq, Repr

/-- The `bcrypt` library. A bcrypt hash is a 60-character string, so never empty. -/
structure Bcrypt where
  hashSync : String → String → String
  compareSync : String → String → Bool
  hash_ne : ∀ p salt, hashSync p salt ≠ ""

/-- What a request to `/register` draws from its environment: the salt of
`bcrypt.genSaltSync()`, the `ObjectId` of the new document and the byte source
behind `crypto.randomBytes`. -/
structure Draw where
  salt : String
  objectId : ObjectId
  entropy : Nat → Nat

/-! ## `crypto.randomBytes(128).toString("hex")` -/

def randomBytes (n : Nat) (entropy : Nat → Nat) : List Nat :=
  (List.range n).map (fun i => entropy i % 256)

def toHex (bytes : List Nat) : String :=
  String.mk (bytes.flatMap (fun b => [Nat.digitChar (b / 16), Nat.digitChar (b % 16)]))

/-- The `default` of the schema path `accessToken`. -/
def defaultAccessToken (env : Draw) : String :=
  toHex (randomBytes 128 env.entropy)

/-! ## The `User` model -/

/-- Filter `(username: u)`. -/
def byUsername (u : Option String) (a : Account) : Bool :=
  decide (some a.username = u)

/-- Filter `(accessToken: t)`; `none` is `undefined`, sent as `null`. -/
def byAccessToken (t : Option String) (a : Account) : Bool :=
  decide (a.accessToken = t)

/-- Runs `User.findOne(filter)`: the first matching document with its position in the
collection, which stands for the identity of the loaded document. -/
def User.findOne (q : Account → Bool) : Store → Option (Nat × Account)
  | [] => none
  | a :: s => if q a then some (0, a) else (User.findOne q s).map (fun r => (r.1 + 1, r.2))

/-- A document made by `new User(...)`, before validation. -/
structure UserDoc where
  _id : ObjectId
  username : Option String
  password : String
  accessToken : Option String
deriving DecidableEq, Repr

/-- Validators of the path `username`: `required`, `minlength: 2`, `maxlength: 14`;
the first one that fails is reported. -/
def validateUsername : Option String → Option String
  | none => some "required"
  | some u =>
    if u = "" then some "required"
    else if jsLength u < 2 then some "minlength"
    else if 14 < jsLength u then some "maxlength"
    else none

/-- Validator of the path `password`: `required`. -/
def validatePassword (h : String) : Option String :=
  if h = "" then some "required" else none

/-- Schema validation of a document: the failing paths. -/
def validate (d : UserDoc) : List (String × String) :=
  (match validateUsername d.username with
    | some k => [("username", k)]
    | none => []) ++
  (match validatePassword d.password with
    | some k => [("password", k)]
    | none => [])

/-- What `save()` throws. -/
inductive SaveError where
  | validation (errors : List (String × String))
  | duplicateKey
deriving DecidableEq, Repr

/-- The `errors` property of a thrown error; a duplicate-key error has none. -/
def SaveError.errors : SaveError → ErrorField
  | .validation errs => .details errs
  | .duplicateKey => .absent

/-- Builds `new User((username, password))`: the schema default fills `accessToken`. -/
def newUser (env : Draw) (username : Option String) (password : String) : UserDoc :=
  { _id := env.objectId, username := username, password := password,
    accessToken := some (defaultAccessToken env) }

/-- Runs `save()` of a new document: validation, then the insert under the unique index
on `username`. -/
def saveNew (s : Store) (d : UserDoc) : Except SaveError (Account × Store) :=
  match validate d, d.username with
  | [], some u =>
    if s.any (fun a => decide (a.username = u)) then .error .duplicateKey
    else
      let a : Account :=
        { _id := d._id, username := u, password := d.password, accessToken := d.accessToken }
      .ok (a, s ++ [a])
  | errs, _ => .error (.validation errs)

/-- The loaded document as Mongoose sees it on `save()`. -/
def Account.toDoc (a : Account) : UserDoc :=
  { _id := a._id, username := some a.username, password := a.password,
    accessToken := a.accessToken }

/-- Runs `save()` of a document loaded from position `i`: validation, then the write. -/
def saveLoaded (s : Store) (i : Nat) (a : Account) : Except SaveError Store :=
  match validate a.toDoc with
  | [] => .ok (s.set i a)
  | errs => .error (.validation errs)

/-! ## Middleware and routes -/

/-- Outcome of a middleware: `next()` or a reply. -/
inductive Gate where
  | next
  | reply (r : Response)
deriving DecidableEq, Repr

def pleaseLogIn : Response :=
  { status := 403,
    body := { success := false, response := .null, message := some "Please log in",
              error := .absent } }

/-- The middleware `authenticateUser`. -/
def authenticateUser (s : Store) (authorization : Option String) : Gate :=
  match User.findOne (byAccessToken authorization) s with
  | some _ => .next
  | none => .reply pleaseLogIn

def passwordRequired : Response :=
  { status := 400,
    body := { success := false, response := .text "Password is required", message := none,
              error := .absent } }

def passwordTooShort : Response :=
  { status := 400,
    body := { success := false,
              response := .text "Password needs to be at least 6 characters long",
              message := none, error := .absent } }

def userCreated (a : Account) : Response :=
  { status := 201,
    body := { success := true, response := .user a.username a._id a.accessToken,
              message := some "User created successfully", error := .absent } }

def couldNotCreate (e : SaveError) : Response :=
  { status := 400,
    body := { success := false, response := .text "Could not create user", message := none,
              error := e.errors } }

/-- Handler of `POST /register`. -/
def register (B : Bcrypt) (s : Store) (username password : Option String) (env : Draw) :
    Response × Store :=
  match password with
  | none => (passwordRequired, s)
  | some p =>
    if p = "" then (passwordRequired, s)
    else if jsLength p < 6 then (passwordTooShort, s)
    else
      match saveNew s (newUser env username (B.hashSync p env.salt)) with
      | .ok (created, s1) => (userCreated created, s1)
      | .error e => (couldNotCreate e, s)

def loggedIn (a : Account) : Response :=
  { status := 200,
    body := { success := true, response := .user a.username a._id a.accessToken,
              message := some "User logged in successfully", error := .absent } }

def credentialsDoNotMatch : Response :=
  { status := 400,
    body := { success := false, response := .text "Credentials do not match",
              message := some "Credentials do not match", error := .null } }

def internalServerError (error : ErrorField) : Response :=
  { status := 500,
    body := { success := false, response := .text "Internal server error",
              message := some "Internal server error", error := error } }

/-- Handler of `POST /login`. `bcrypt.compareSync` throws when the password is missing,
which the `catch` turns into the 500 reply. -/
def login (B : Bcrypt) (s : Store) (username password : Option String) : Response × Store :=
  match User.findOne (byUsername username) s with
  | some (_, user) =>
    match password with
    | none => (internalServerError .absent, s)
    | some p =>
      if B.compareSync p user.password then (loggedIn user, s)
      else (credentialsDoNotMatch, s)
  | none => (credentialsDoNotMatch, s)

def loggedOut : Response :=
  { status := 200,
    body := { success := true, response := .null,
              message := some "User logged out successfully", error := .absent } }

def couldNotFindUser : Response :=
  { status := 400,
    body := { success := false, response := .text "Could not find user",
              message := some "Could not find user", error := .null } }

/-- Handler of `POST /logout`, run after the gate let the request through. -/
def logoutHandler (s : Store) (authorization : Option String) : Response × Store :=
  match User.findOne (byAccessToken authorization) s with
  | some (i, user) =>
    match saveLoaded s i { user with accessToken := none } with
    | .ok s1 => (loggedOut, s1)
    | .error e => (internalServerError e.errors, s)
  | none => (couldNotFindUser, s)

/-- Route `POST /logout`: `authenticateUser`, then the handler. -/
def logout (s : Store) (authorization : Option String) : Response × Store :=
  match authenticateUser s authorization with
  | .next => logoutHandler s authorization
  | .reply r => (r, s)

/-! ## Request sequences -/

inductive Request where
  | register (username password : Option String) (env : Draw)
  | login (username password : Option String)
  | logout (authorization : Option String)

def handle (B : Bcrypt) (s : Store) : Request → Response × Store
  | .register username password env => register B s username password env
  | .login username password => login B s username password
  | .logout authorization => logout s authorization

/-- The collection after a sequence of requests. -/
def run (B : Bcrypt) (s : Store) : List Request → Store
  | [] => s
  | r :: rs => run B (handle B s r).2 rs

/-- Every token generated by a `register` request of the sequence differs from the tokens
held in the collection at that moment. -/
def freshTokens (B : Bcrypt) (s : Store) : List Request → Bool
  | [] => true
  | r :: rs =>
    (match r with
      | .register _ _ env =>
        s.all (fun a => decide (a.accessToken ≠ some (defaultAccessToken env)))
      | _ => true) && freshTokens B (handle B s r).2 rs

def Request.isLogin : Request → Bool
  | .login _ _ => true
  | _ => false

/-- Number of documents with the given username. -/
def countUsername (s : Store) (u : String) : Nat :=
  s.countP (fun a => decide (a.username = u))

/-- Number of documents holding the given token. -/
def countToken (s : Store) (t : String) : Nat :=
  s.countP (byAccessToken (some t))

/-! ## A concrete `bcrypt` and concrete requests, for evaluation -/

/-- A stand-in for bcrypt: the hash is a marker, the salt and the password; the
comparison checks that the hash ends with the password. -/
def toyBcrypt : Bcrypt where
  hashSync p salt := String.mk ('$' :: (salt.toList ++ p.toList))
  compareSync p h := p.toList.isSuffixOf h.toList
  hash_ne := by
    intro p salt h
    have := congrArg String.data h
    simp at this

def zeroDraw : Draw := { salt := "s", objectId := "id1", entropy := fun _ => 0 }

def oneDraw : Draw := { salt := "t", objectId := "id2", entropy := fun _ => 1 }


/-- A collection with one logged-in account. -/
def aliceStore : Store :=
  [{ _id := "id0", username := "alice", password := "$ssecret1", accessToken := some "tok" }]

/-- Register bob, then log bob out with the token bob was given. -/
def bobRegisterLogout : List Request :=
  [.register (some "bob") (some "abcdef") zeroDraw,
   .logout (some (defaultAccessToken zeroDraw))]

/-- Two registrations with different draws, a login, a logout, a second registration of
bob and a logout without header. -/
def sampleRequests : List Request :=
  [.register (some "bob") (some "abcdef") zeroDraw,
   .login (some "bob") (some "abcdef"),
   .register (some "amy") (some "qwertyui") oneDraw,
   .logout (some (defaultAccessToken zeroDraw)),
   .register (some "bob") (some "zzzzzzz") zeroDraw,
   .logout none]

/-- Three login requests: the right password, a wrong one, and none at all. -/
def bobLogins : List Request :=
  [.login (some "bob") (some "abcdef"), .login (some "bob") (some "nonono"),
   .login (some "bob") none]

/-! ## Lemmas on the model -/

theorem jsLength_empty : jsLength "" = 0 := by decide

theorem ne_empty_of_jsLength {p : String} {n : Nat} (h : n + 1 ≤ jsLength p) : p ≠ "" := by
  intro hp
  subst hp
  rw [jsLength_empty] at h
  omega

theorem validateUsername_ok {u : String} (h2 : 2 ≤ jsLength u) (h14 : jsLength u ≤ 14) :
    validateUsername (some u) = none := by
  have hne : u ≠ "" := ne_empty_of_jsLength h2
  have h2n : ¬ jsLength u < 2 := by omega
  have h14n : ¬ 14 < jsLength u := by omega
  simp [validateUsername, hne, h2n, h14n]

theorem validate_newUser (B : Bcrypt) (env : Draw) {u : String} (p : String)
    (h2 : 2 ≤ jsLength u) (h14 : jsLength u ≤ 14) :
    validate (newUser env (some u) (B.hashSync p env.salt)) = [] := by
  simp [validate, newUser, validateUsername_ok h2 h14, validatePassword, B.hash_ne]

theorem any_username_false {s : Store} {u : String} (h : ∀ a ∈ s, a.username ≠ u) :
    s.any (fun a => decide (a.username = u)) = false := by
  rw [List.any_eq_false]
  intro a ha
  simpa using h a ha

theorem findOne_eq_none {q : Account → Bool} {s : Store} (h : ∀ a ∈ s, q a = false) :
    User.findOne q s = none := by
  induction s with
  | nil => rfl
  | cons a s ih =>
    have ha : q a = false := h a (List.mem_cons_self a s)
    have hs : User.findOne q s = none := ih (fun b hb => h b (List.mem_cons_of_mem a hb))
    simp [User.findOne, ha, hs]

theorem findOne_some_spec {q : Account → Bool} {s : Store} {i : Nat} {a : Account}
    (h : User.findOne q s = some (i, a)) : q a = true ∧ s[i]? = some a := by
  induction s generalizing i with
  | nil => simp [User.findOne] at h
  | cons b s ih =>
    by_cases hb : q b = true
    · simp [User.findOne, hb] at h
      obtain ⟨rfl, rfl⟩ := h
      exact ⟨hb, by simp⟩
    · simp only [User.findOne, hb] at h
      cases hr : User.findOne q s with
      | none => simp [hr] at h
      | some r =>
        obtain ⟨j, c⟩ := r
        simp [hr] at h
        obtain ⟨rfl, rfl⟩ := h
        have := ih hr
        exact ⟨this.1, by simpa using this.2⟩

theorem findOne_append_single {q : Account → Bool} {s : Store} {a : Account}
    (h : ∀ b ∈ s, q b = false) (ha : q a = true) :
    User.findOne q (s ++ [a]) = some (s.length, a) := by
  induction s with
  | nil => simp [User.findOne, ha]
  | cons b s ih =>
    have hb : q b = false := h b (List.mem_cons_self b s)
    have hs := ih (fun c hc => h c (List.mem_cons_of_mem b hc))
    simp [User.findOne, hb, hs]

theorem register_ok (B : Bcrypt) (s : Store) (u p : String) (env : Draw)
    (hfree : ∀ a ∈ s, a.username ≠ u)
    (h2 : 2 ≤ jsLength u) (h14 : jsLength u ≤ 14) (hp : 6 ≤ jsLength p) :
    register B s (some u) (some p) env =
      (userCreated { _id := env.objectId, username := u, password := B.hashSync p env.salt,
                     accessToken := some (defaultAccessToken env) },
       s ++ [{ _id := env.objectId, username := u, password := B.hashSync p env.salt,
               accessToken := some (defaultAccessToken env) }]) := by
  have hne : p ≠ "" := ne_empty_of_jsLength hp
  have hlen : ¬ jsLength p < 6 := by omega
  have hv := validate_newUser B env p h2 h14
  have hany := any_username_false hfree
  simp only [register, hne, hlen, if_false, saveNew, hv]
  simp [newUser, hany]

theorem register_duplicate (B : Bcrypt) (s : Store) (u p : String) (env : Draw)
    (hdup : ∃ a ∈ s, a.username = u)
    (h2 : 2 ≤ jsLength u) (h14 : jsLength u ≤ 14) (hp : 6 ≤ jsLength p) :
    register B s (some u) (some p) env = (couldNotCreate .duplicateKey, s) := by
  have hne : p ≠ "" := ne_empty_of_jsLength hp
  have hlen : ¬ jsLength p < 6 := by omega
  have hv := validate_newUser B env p h2 h14
  have hany : s.any (fun a => decide (a.username = u)) = true := by
    rw [List.any_eq_true]
    obtain ⟨a, ha, hau⟩ := hdup
    exact ⟨a, ha, by simpa using hau⟩
  simp only [register, hne, hlen, if_false, saveNew, hv]
  simp [newUser, hany]


/-! ## Register -/

/-- C1: a register request whose password is absent, empty, or a string shorter than 6
is answered 400 and leaves the collection as it was, whatever the username and the
collection. -/
theorem register_rejects_missing_or_short_password (B : Bcrypt) (s : Store)
    (username password : Option String) (env : Draw)
    (h : password = none ∨ password = some "" ∨ ∃ p, password = some p ∧ jsLength p < 6) :
    (register B s username password env).1.status = 400 ∧
      (register B s username password env).2 = s := by
  rcases h with rfl | rfl | ⟨p, rfl, hp⟩
  · exact ⟨rfl, rfl⟩
  · exact ⟨rfl, rfl⟩
  · by_cases he : p = ""
    · simp [register, he, passwordRequired]
    · simp [register, he, hp, passwordTooShort]

theorem register_rejects_missing_or_short_password_witness :
    (register toyBcrypt aliceStore (some "alice") (some "abc") zeroDraw).1.status = 400 ∧
      (register toyBcrypt aliceStore (some "alice") (some "abc") zeroDraw).2 = aliceStore :=
  register_rejects_missing_or_short_password toyBcrypt aliceStore (some "alice") (some "abc")
    zeroDraw (Or.inr (Or.inr ⟨"abc", rfl, by decide⟩))

/-- C2: in a collection with no account named u, for a username u of 2 to 14 and
passwords of at least 6: the first register is answered 201, the second 400, the second
leaves the collection as the first left it, and exactly one account is named u. -/
theorem register_twice_same_username (B : Bcrypt) (s : Store) (u p1 p2 : String)
    (env1 env2 : Draw) (hfree : ∀ a ∈ s, a.username ≠ u)
    (h2 : 2 ≤ jsLength u) (h14 : jsLength u ≤ 14)
    (hp1 : 6 ≤ jsLength p1) (hp2 : 6 ≤ jsLength p2) :
    (register B s (some u) (some p1) env1).1.status = 201 ∧
      (register B (register B s (some u) (some p1) env1).2 (some u) (some p2) env2).1.status
        = 400 ∧
      (register B (register B s (some u) (some p1) env1).2 (some u) (some p2) env2).2
        = (register B s (some u) (some p1) env1).2 ∧
      countUsername
        (register B (register B s (some u) (some p1) env1).2 (some u) (some p2) env2).2 u
        = 1 := by
  have hdup : ∃ a ∈ (register B s (some u) (some p1) env1).2, a.username = u := by
    rw [register_ok B s u p1 env1 hfree h2 h14 hp1]
    exact ⟨_, List.mem_append_right s (List.mem_singleton_self _), rfl⟩
  rw [register_duplicate B _ u p2 env2 hdup h2 h14 hp2]
  rw [register_ok B s u p1 env1 hfree h2 h14 hp1]
  refine ⟨rfl, rfl, rfl, ?_⟩
  have h0 : List.countP (fun a : Account => decide (a.username = u)) s = 0 := by
    rw [List.countP_eq_zero]
    intro a ha
    simpa using hfree a ha
  simp [countUsername, List.countP_append, h0]

theorem register_twice_same_username_witness :
    (register toyBcrypt aliceStore (some "bob") (some "abcdef") zeroDraw).1.status = 201 ∧
      (register toyBcrypt (register toyBcrypt aliceStore (some "bob") (some "abcdef") zeroDraw).2
        (some "bob") (some "qwertyui") oneDraw).1.status = 400 ∧
      (register toyBcrypt (register toyBcrypt aliceStore (some "bob") (some "abcdef") zeroDraw).2
        (some "bob") (some "qwertyui") oneDraw).2
        = (register toyBcrypt aliceStore (some "bob") (some "abcdef") zeroDraw).2 ∧
      countUsername
        (register toyBcrypt
          (register toyBcrypt aliceStore (some "bob") (some "abcdef") zeroDraw).2
          (some "bob") (some "qwertyui") oneDraw).2 "bob" = 1 :=
  register_twice_same_username toyBcrypt aliceStore "bob" "abcdef" "qwertyui" zeroDraw oneDraw
    (by decide) (by decide) (by decide) (by decide) (by decide)

/-! ## Login -/

theorem findOne_byUsername_append (s : Store) (a : Account)
    (hfree : ∀ b ∈ s, b.username ≠ a.username) :
    User.findOne (byUsername (some a.username)) (s ++ [a]) = some (s.length, a) := by
  apply findOne_append_single
  · intro b hb
    simpa [byUsername] using hfree b hb
  · simp [byUsername]

/-- C3: in a collection with no account named u, for a username u of 2 to 14 and a
password p of at least 6 that bcrypt accepts against its own hash: register is answered
201, the following login with u and p is answered 200, and the login reply carries the
username, id and accessToken of the register reply. -/
theorem login_after_register_same_token (B : Bcrypt) (s : Store) (u p : String) (env : Draw)
    (hfree : ∀ a ∈ s, a.username ≠ u)
    (h2 : 2 ≤ jsLength u) (h14 : jsLength u ≤ 14) (hp : 6 ≤ jsLength p)
    (hcmp : B.compareSync p (B.hashSync p env.salt) = true) :
    (register B s (some u) (some p) env).1.status = 201 ∧
      (register B s (some u) (some p) env).1.body.response
        = .user u env.objectId (some (defaultAccessToken env)) ∧
      (login B (register B s (some u) (some p) env).2 (some u) (some p)).1.status = 200 ∧
      (login B (register B s (some u) (some p) env).2 (some u) (some p)).1.body.response
        = (register B s (some u) (some p) env).1.body.response := by
  rw [register_ok B s u p env hfree h2 h14 hp]
  have hf := findOne_byUsername_append s
    { _id := env.objectId, username := u, password := B.hashSync p env.salt,
      accessToken := some (defaultAccessToken env) } hfree
  simp only [login, hf, hcmp, if_true]
  exact ⟨rfl, rfl, rfl, rfl⟩

theorem login_after_register_same_token_witness :
    (register toyBcrypt aliceStore (some "bob") (some "abcdef") zeroDraw).1.status = 201 ∧
      (register toyBcrypt aliceStore (some "bob") (some "abcdef") zeroDraw).1.body.response
        = .user "bob" zeroDraw.objectId (some (defaultAccessToken zeroDraw)) ∧
      (login toyBcrypt (register toyBcrypt aliceStore (some "bob") (some "abcdef") zeroDraw).2
        (some "bob") (some "abcdef")).1.status = 200 ∧
      (login toyBcrypt (register toyBcrypt aliceStore (some "bob") (some "abcdef") zeroDraw).2
        (some "bob") (some "abcdef")).1.body.response
        = (register toyBcrypt aliceStore (some "bob") (some "abcdef") zeroDraw).1.body.response :=
  login_after_register_same_token toyBcrypt aliceStore "bob" "abcdef" zeroDraw
    (by decide) (by decide) (by decide) (by decide) (by decide)

/-- C4: a login with a username that names no account, whatever password comes with
it, and a login with the username of an account and a supplied password that bcrypt
rejects against the stored hash get the same reply, status 400 and every field of the
body alike, and both leave the collection as it was. -/
theorem login_unknown_user_same_as_wrong_password (B : Bcrypt) (s : Store) (u v p : String)
    (pw : Option String) (i : Nat) (a : Account)
    (hu : ∀ b ∈ s, b.username ≠ u)
    (hv : User.findOne (byUsername (some v)) s = some (i, a))
    (hwrong : B.compareSync p a.password = false) :
    (login B s (some u) pw).1 = (login B s (some v) (some p)).1 ∧
      (login B s (some u) pw).1 = credentialsDoNotMatch ∧
      (login B s (some u) pw).1.status = 400 := by
  have hnone : User.findOne (byUsername (some u)) s = none := by
    apply findOne_eq_none
    intro b hb
    simpa [byUsername] using hu b hb
  simp [login, hnone, hv, hwrong, credentialsDoNotMatch]

theorem login_unknown_user_same_as_wrong_password_witness :
    (login toyBcrypt aliceStore (some "bob") (some "secret1")).1
        = (login toyBcrypt aliceStore (some "alice") (some "secret2")).1 ∧
      (login toyBcrypt aliceStore (some "bob") (some "secret1")).1 = credentialsDoNotMatch ∧
      (login toyBcrypt aliceStore (some "bob") (some "secret1")).1.status = 400 :=
  login_unknown_user_same_as_wrong_password toyBcrypt aliceStore "bob" "alice" "secret2"
    (some "secret1") 0
    { _id := "id0", username := "alice", password := "$ssecret1", accessToken := some "tok" }
    (by decide) (by decide) (by decide)


/-! ## Logout and the gate -/

theorem logout_of_findOne_none {s : Store} {h : Option String}
    (hf : User.findOne (byAccessToken h) s = none) : logout s h = (pleaseLogIn, s) := by
  simp [logout, authenticateUser, hf]

theorem logout_of_findOne_some {s : Store} {h : Option String} {i : Nat} {a : Account}
    (hf : User.findOne (byAccessToken h) s = some (i, a)) :
    logout s h =
      match saveLoaded s i { a with accessToken := none } with
      | .ok s1 => (loggedOut, s1)
      | .error e => (internalServerError e.errors, s) := by
  simp [logout, authenticateUser, logoutHandler, hf]

theorem findOne_isSome_of_countP_pos {q : Account → Bool} {s : Store}
    (h : 0 < List.countP q s) : ∃ i a, User.findOne q s = some (i, a) := by
  cases hf : User.findOne q s with
  | some r => exact ⟨r.1, r.2, rfl⟩
  | none =>
    exfalso
    have h0 : List.countP q s = 0 := by
      rw [List.countP_eq_zero]
      intro a ha hq
      induction s with
      | nil => cases ha
      | cons b s ih =>
        by_cases hb : q b = true
        · simp [User.findOne, hb] at hf
        · simp only [User.findOne, hb] at hf
          have hs : User.findOne q s = none := by
            cases hr : User.findOne q s with
            | none => rfl
            | some r => simp [hr] at hf
          rcases List.mem_cons.mp ha with rfl | ha1
          · exact hb hq
          · by_cases hc : 0 < List.countP q s
            · exact ih hc hs ha1
            · have hz : List.countP q s = 0 := by omega
              rw [List.countP_eq_zero] at hz
              exact hz a ha1 hq
    omega

theorem countP_set_found {q : Account → Bool} {s : Store} {i : Nat} {a : Account}
    (b : Account) (h : User.findOne q s = some (i, a)) (hb : q b = false) :
    List.countP q (s.set i b) + 1 = List.countP q s := by
  induction s generalizing i with
  | nil => simp [User.findOne] at h
  | cons c s ih =>
    by_cases hc : q c = true
    · simp [User.findOne, hc] at h
      obtain ⟨rfl, rfl⟩ := h
      simp [List.countP_cons, hc, hb]
    · simp only [User.findOne, hc] at h
      cases hr : User.findOne q s with
      | none => simp [hr] at h
      | some r =>
        obtain ⟨j, d⟩ := r
        simp [hr] at h
        obtain ⟨rfl, rfl⟩ := h
        have := ih hr
        simp [List.countP_cons, hc, this]

/-- C5 as stated fails: with one account holding the token, the first logout is answered
200 and the second one is stopped by the gate with 403 "Please log in", not answered 400
"Could not find user". -/
theorem second_logout_is_403_not_400 :
    (∃ a ∈ aliceStore, a.accessToken = some "tok") ∧
      (logout aliceStore (some "tok")).1.status = 200 ∧
      (logout (logout aliceStore (some "tok")).2 (some "tok")).1 = pleaseLogIn ∧
      ¬ ((logout (logout aliceStore (some "tok")).2 (some "tok")).1.status = 400 ∧
          (logout (logout aliceStore (some "tok")).2 (some "tok")).1.body.message
            = some "Could not find user") := by
  decide

/-- C5 amended: when exactly one account holds the token T and the first logout with T is
answered 200, the second logout with T is stopped by the gate with 403 "Please log in"
and changes nothing. -/
theorem second_logout_stopped_by_gate (s : Store) (T : String)
    (hone : countToken s T = 1) (h200 : (logout s (some T)).1.status = 200) :
    logout (logout s (some T)).2 (some T) = (pleaseLogIn, (logout s (some T)).2) ∧
      pleaseLogIn.status = 403 ∧ pleaseLogIn.body.message = some "Please log in" := by
  refine ⟨?_, rfl, rfl⟩
  obtain ⟨i, a, hf⟩ := findOne_isSome_of_countP_pos (q := byAccessToken (some T)) (s := s)
    (by unfold countToken at hone; omega)
  rw [logout_of_findOne_some hf] at h200 ⊢
  cases hs : saveLoaded s i { a with accessToken := none } with
  | error e => simp [hs, internalServerError] at h200
  | ok s1 =>
    simp only [hs]
    apply logout_of_findOne_none
    apply findOne_eq_none
    have hs1 : s1 = s.set i { a with accessToken := none } := by
      unfold saveLoaded at hs
      split at hs
      · simpa using hs.symm
      · cases hs
    have hcnt := countP_set_found (q := byAccessToken (some T))
      { a with accessToken := none } hf (by simp [byAccessToken])
    have h0 : List.countP (byAccessToken (some T)) s1 = 0 := by
      unfold countToken at hone
      rw [hs1]
      omega
    rw [List.countP_eq_zero] at h0
    intro b hb
    simpa using h0 b hb

theorem second_logout_stopped_by_gate_witness :
    logout (logout aliceStore (some "tok")).2 (some "tok")
        = (pleaseLogIn, (logout aliceStore (some "tok")).2) ∧
      pleaseLogIn.status = 403 ∧ pleaseLogIn.body.message = some "Please log in" :=
  second_logout_stopped_by_gate aliceStore "tok" (by decide) (by decide)

/-- The gate lets a request without `Authorization` header through as soon as some account
holds a `null` accessToken. -/
theorem authenticateUser_next_of_null_token (s : Store)
    (h : ∃ a ∈ s, a.accessToken = none) : authenticateUser s none = .next := by
  obtain ⟨a, ha, hn⟩ := h
  have hpos : 0 < List.countP (byAccessToken none) s :=
    List.countP_pos_iff.mpr ⟨a, ha, by simp [byAccessToken, hn]⟩
  obtain ⟨i, b, hf⟩ := findOne_isSome_of_countP_pos hpos
  simp [authenticateUser, hf]

/-- C6 fails on the code: after bob registers and logs out, the collection holds bob with
a `null` accessToken; a logout request without `Authorization` header then passes the gate
and the handler answers 200 "User logged out successfully" instead of the gate's 403. -/
theorem gate_admits_missing_header_after_logout :
    run toyBcrypt [] bobRegisterLogout
        = [{ _id := "id1", username := "bob", password := "$sabcdef", accessToken := none }] ∧
      authenticateUser (run toyBcrypt [] bobRegisterLogout) none = .next ∧
      (logout (run toyBcrypt [] bobRegisterLogout) none).1 = loggedOut ∧
      (logout (run toyBcrypt [] bobRegisterLogout) none).1.status = 200 := by
  decide


/-! ## Register, logout, then the gate -/

theorem toHex_length (bytes : List Nat) : (toHex bytes).length = 2 * bytes.length := by
  induction bytes with
  | nil => rfl
  | cons b bs ih =>
    simp only [toHex, String.length, List.flatMap_cons, List.length_append, List.length_cons,
      List.length_nil] at ih ⊢
    omega

theorem defaultAccessToken_length (env : Draw) : (defaultAccessToken env).length = 256 := by
  simp [defaultAccessToken, toHex_length, randomBytes]

theorem defaultAccessToken_ne_empty (env : Draw) : defaultAccessToken env ≠ "" := by
  intro h
  have hl := defaultAccessToken_length env
  rw [h] at hl
  simp at hl

theorem set_length_append_single (s : Store) (a b : Account) :
    (s ++ [a]).set s.length b = s ++ [b] := by
  induction s with
  | nil => rfl
  | cons c s ih => simp [ih]

theorem logout_appended_holder (s : Store) (a : Account) (t : String)
    (ha : a.accessToken = some t) (hfresh : ∀ b ∈ s, b.accessToken ≠ some t)
    (hv : validate (Account.toDoc { a with accessToken := none }) = []) :
    logout (s ++ [a]) (some t) = (loggedOut, s ++ [{ a with accessToken := none }]) := by
  have hq : ∀ b ∈ s, byAccessToken (some t) b = false := by
    intro b hb
    simpa [byAccessToken] using hfresh b hb
  have hf := findOne_append_single (q := byAccessToken (some t)) (a := a) hq
    (by simp [byAccessToken, ha])
  rw [logout_of_findOne_some hf]
  simp only [saveLoaded, hv, set_length_append_single]

theorem logout_appended_cleared (s : Store) (a : Account) (t : String)
    (ha : a.accessToken = none) (hfresh : ∀ b ∈ s, b.accessToken ≠ some t) :
    logout (s ++ [a]) (some t) = (pleaseLogIn, s ++ [a]) := by
  apply logout_of_findOne_none
  apply findOne_eq_none
  intro b hb
  rcases List.mem_append.mp hb with hb | hb
  · simpa [byAccessToken] using hfresh b hb
  · rw [List.mem_singleton] at hb
    subst hb
    simp [byAccessToken, ha]

/-- C7: in a collection with no account named u, for a username u of 2 to 14 and a
password of at least 6, with a token drawn from 128 random bytes that no stored account
holds: register is answered 201 with a non-empty token T1, the logout with T1 is answered
200 and leaves the new account with a null accessToken, and the next logout request with
T1 is stopped by the gate with 403. -/
theorem register_logout_then_gate_rejects (B : Bcrypt) (s : Store) (u p : String) (env : Draw)
    (hfree : ∀ a ∈ s, a.username ≠ u)
    (hfresh : ∀ a ∈ s, a.accessToken ≠ some (defaultAccessToken env))
    (h2 : 2 ≤ jsLength u) (h14 : jsLength u ≤ 14) (hp : 6 ≤ jsLength p) :
    (register B s (some u) (some p) env).1.status = 201 ∧
      (register B s (some u) (some p) env).1.body.response
        = .user u env.objectId (some (defaultAccessToken env)) ∧
      defaultAccessToken env ≠ "" ∧
      (logout (register B s (some u) (some p) env).2 (some (defaultAccessToken env))).1
        = loggedOut ∧
      (logout (register B s (some u) (some p) env).2 (some (defaultAccessToken env))).2
        = s ++ [{ _id := env.objectId, username := u, password := B.hashSync p env.salt,
                  accessToken := none }] ∧
      (logout
        (logout (register B s (some u) (some p) env).2 (some (defaultAccessToken env))).2
        (some (defaultAccessToken env))).1 = pleaseLogIn ∧
      loggedOut.status = 200 ∧ pleaseLogIn.status = 403 := by
  rw [register_ok B s u p env hfree h2 h14 hp]
  have hv : validateUsername (some u) = none ∧ validatePassword (B.hashSync p env.salt) = none :=
    ⟨validateUsername_ok h2 h14, by simp [validatePassword, B.hash_ne]⟩
  have hout := logout_appended_holder s
    { _id := env.objectId, username := u, password := B.hashSync p env.salt,
      accessToken := some (defaultAccessToken env) }
    (defaultAccessToken env) rfl hfresh (by simp [validate, Account.toDoc, hv.1, hv.2])
  have hgate := logout_appended_cleared s
    { _id := env.objectId, username := u, password := B.hashSync p env.salt,
      accessToken := none }
    (defaultAccessToken env) rfl hfresh
  refine ⟨rfl, rfl, defaultAccessToken_ne_empty env, ?_, ?_, ?_, rfl, rfl⟩
  · show (logout _ _).1 = _
    rw [hout]
  · show (logout _ _).2 = _
    rw [hout]
  · show (logout (logout _ _).2 _).1 = _
    rw [hout, hgate]

theorem register_logout_then_gate_rejects_witness :
    (register toyBcrypt aliceStore (some "bob") (some "abcdef") zeroDraw).1.status = 201 ∧
      (register toyBcrypt aliceStore (some "bob") (some "abcdef") zeroDraw).1.body.response
        = .user "bob" zeroDraw.objectId (some (defaultAccessToken zeroDraw)) ∧
      defaultAccessToken zeroDraw ≠ "" ∧
      (logout (register toyBcrypt aliceStore (some "bob") (some "abcdef") zeroDraw).2
        (some (defaultAccessToken zeroDraw))).1 = loggedOut ∧
      (logout (register toyBcrypt aliceStore (some "bob") (some "abcdef") zeroDraw).2
        (some (defaultAccessToken zeroDraw))).2
        = aliceStore ++ [{ _id := zeroDraw.objectId, username := "bob",
                           password := toyBcrypt.hashSync "abcdef" zeroDraw.salt,
                           accessToken := none }] ∧
      (logout
        (logout (register toyBcrypt aliceStore (some "bob") (some "abcdef") zeroDraw).2
          (some (defaultAccessToken zeroDraw))).2
        (some (defaultAccessToken zeroDraw))).1 = pleaseLogIn ∧
      loggedOut.status = 200 ∧ pleaseLogIn.status = 403 :=
  register_logout_then_gate_rejects toyBcrypt aliceStore "bob" "abcdef" zeroDraw
    (by decide) (by decide) (by decide) (by decide) (by decide)


/-! ## Invariants of the collection -/

theorem saveNew_cases (s : Store) (d : UserDoc) :
    (∃ e, saveNew s d = .error e) ∨
      ∃ u, (∀ b ∈ s, b.username ≠ u) ∧
        saveNew s d
          = .ok ({ _id := d._id, username := u, password := d.password,
                   accessToken := d.accessToken },
                 s ++ [{ _id := d._id, username := u, password := d.password,
                         accessToken := d.accessToken }]) := by
  unfold saveNew
  split
  · rename_i u _ _
    by_cases hany : s.any (fun a => decide (a.username = u)) = true
    · left
      exact ⟨.duplicateKey, by simp [hany]⟩
    · right
      refine ⟨u, ?_, by simp [hany]⟩
      intro b hb hbu
      apply hany
      rw [List.any_eq_true]
      exact ⟨b, hb, by simpa using hbu⟩
  · left
    exact ⟨_, rfl⟩

theorem register_store_cases (B : Bcrypt) (s : Store) (username password : Option String)
    (env : Draw) :
    (register B s username password env).2 = s ∨
      ∃ u h, (∀ b ∈ s, b.username ≠ u) ∧
        (register B s username password env).2
          = s ++ [{ _id := env.objectId, username := u, password := h,
                    accessToken := some (defaultAccessToken env) }] := by
  unfold register
  cases password with
  | none => exact Or.inl rfl
  | some p =>
    by_cases he : p = ""
    · simp [he]
    · by_cases hl : jsLength p < 6
      · simp [he, hl]
      · simp only [he, hl, if_false]
        rcases saveNew_cases s (newUser env username (B.hashSync p env.salt)) with
          ⟨e, hs⟩ | ⟨u, hfree, hs⟩
        · rw [hs]
          exact Or.inl rfl
        · rw [hs]
          exact Or.inr ⟨u, B.hashSync p env.salt, hfree, rfl⟩

theorem logout_store_cases (s : Store) (h : Option String) :
    (logout s h).2 = s ∨
      ∃ i a, s[i]? = some a ∧ (logout s h).2 = s.set i { a with accessToken := none } := by
  cases hf : User.findOne (byAccessToken h) s with
  | none => rw [logout_of_findOne_none hf]; exact Or.inl rfl
  | some r =>
    obtain ⟨i, a⟩ := r
    rw [logout_of_findOne_some hf]
    unfold saveLoaded
    split
    · rename_i s1 hs
      split at hs
      · right
        refine ⟨i, a, (findOne_some_spec hf).2, ?_⟩
        simpa using hs.symm
      · cases hs
    · exact Or.inl rfl

theorem login_store (B : Bcrypt) (s : Store) (username password : Option String) :
    (login B s username password).2 = s := by
  unfold login
  split
  · split
    · rfl
    · split <;> rfl
  · rfl

theorem countP_set_same {q : Account → Bool} {s : Store} {i : Nat} {a : Account}
    (b : Account) (h : s[i]? = some a) (hb : q b = q a) :
    List.countP q (s.set i b) = List.countP q s := by
  induction s generalizing i with
  | nil => simp at h
  | cons c s ih =>
    cases i with
    | zero =>
      simp at h
      subst h
      simp [List.countP_cons, hb]
    | succ j =>
      simp at h
      simp [List.countP_cons, ih h]

theorem countP_set_le {q : Account → Bool} (s : Store) (i : Nat) (b : Account)
    (hb : q b = false) : List.countP q (s.set i b) ≤ List.countP q s := by
  induction s generalizing i with
  | nil => simp
  | cons c s ih =>
    cases i with
    | zero =>
      by_cases hc : q c = true
      · simp [List.countP_cons, hb, hc]
      · simp [List.countP_cons, hb, hc]
    | succ j =>
      simp only [List.set_cons_succ, List.countP_cons]
      have := ih j
      omega

theorem unique_step (B : Bcrypt) (s : Store) (r : Request)
    (hu : ∀ u, countUsername s u ≤ 1) (ht : ∀ t, countToken s t ≤ 1)
    (hfresh : freshTokens B s [r] = true) :
    (∀ u, countUsername (handle B s r).2 u ≤ 1) ∧ (∀ t, countToken (handle B s r).2 t ≤ 1) := by
  cases r with
  | login username password =>
    simp only [handle, login_store]
    exact ⟨hu, ht⟩
  | register username password env =>
    simp only [handle]
    rcases register_store_cases B s username password env with h | ⟨u, hsh, hfree, h⟩
    · rw [h]; exact ⟨hu, ht⟩
    · rw [h]
      simp only [freshTokens, Bool.and_true, List.all_eq_true, decide_eq_true_eq] at hfresh
      constructor
      · intro v
        simp only [countUsername, List.countP_append, List.countP_cons, List.countP_nil]
        by_cases hv : u = v
        · subst hv
          have h0 : List.countP (fun a : Account => decide (a.username = u)) s = 0 := by
            rw [List.countP_eq_zero]
            intro a ha
            simpa using hfree a ha
          simp [h0]
        · have := hu v
          simp only [countUsername] at this
          simp [hv, this]
      · intro t
        simp only [countToken, List.countP_append, List.countP_cons, List.countP_nil]
        by_cases hv : defaultAccessToken env = t
        · subst hv
          have h0 : List.countP (byAccessToken (some (defaultAccessToken env))) s = 0 := by
            rw [List.countP_eq_zero]
            intro a ha
            simpa [byAccessToken] using hfresh a ha
          simp [h0, byAccessToken]
        · have := ht t
          simp only [countToken] at this
          simp [byAccessToken, hv, this]
  | logout authorization =>
    simp only [handle]
    rcases logout_store_cases s authorization with h | ⟨i, a, hi, h⟩
    · rw [h]; exact ⟨hu, ht⟩
    · rw [h]
      constructor
      · intro v
        have := countP_set_same (q := fun a : Account => decide (a.username = v))
          { a with accessToken := none } hi rfl
        simp only [countUsername, this]
        exact hu v
      · intro t
        have := countP_set_le (q := byAccessToken (some t)) s i
          { a with accessToken := none } (by simp [byAccessToken])
        have := ht t
        simp only [countToken] at this ⊢
        omega

theorem unique_run (B : Bcrypt) (s : Store) (reqs : List Request)
    (hu : ∀ u, countUsername s u ≤ 1) (ht : ∀ t, countToken s t ≤ 1)
    (hfresh : freshTokens B s reqs = true) :
    (∀ u, countUsername (run B s reqs) u ≤ 1) ∧ (∀ t, countToken (run B s reqs) t ≤ 1) := by
  induction reqs generalizing s with
  | nil => exact ⟨hu, ht⟩
  | cons r rs ih =>
    simp only [freshTokens, Bool.and_eq_true] at hfresh
    have hstep := unique_step B s r hu ht (by simp only [freshTokens, Bool.and_true]; exact hfresh.1)
    exact ih (handle B s r).2 hstep.1 hstep.2 hfresh.2

/-- C8: starting from the empty collection, after any sequence of register, login and
logout requests in which every generated token differs from the tokens held at that
moment, every username names at most one account and every token is held by at most one
account. -/
theorem usernames_and_tokens_unique (B : Bcrypt) (reqs : List Request)
    (hfresh : freshTokens B [] reqs = true) :
    (∀ u, countUsername (run B [] reqs) u ≤ 1) ∧ (∀ t, countToken (run B [] reqs) t ≤ 1) :=
  unique_run B [] reqs (fun _ => Nat.zero_le 1) (fun _ => Nat.zero_le 1) hfresh

theorem usernames_and_tokens_unique_witness :
    (∀ u, countUsername (run toyBcrypt [] sampleRequests) u ≤ 1) ∧
      (∀ t, countToken (run toyBcrypt [] sampleRequests) t ≤ 1) :=
  usernames_and_tokens_unique toyBcrypt sampleRequests (by decide)


/-! ## Login never writes -/

theorem run_logins (B : Bcrypt) (s : Store) (reqs : List Request)
    (h : reqs.all Request.isLogin = true) : run B s reqs = s := by
  induction reqs with
  | nil => rfl
  | cons r rs ih =>
    simp only [List.all_cons, Bool.and_eq_true] at h
    cases r with
    | login username password =>
      simp only [run, handle, login_store]
      exact ih h.2
    | register username password env => simp [Request.isLogin] at h
    | logout authorization => simp [Request.isLogin] at h

/-- C9: a login request, whatever its username and password and whether it succeeds or
not, leaves the collection as it was; and a login answered 200 carries the username, id
and accessToken of the stored account exactly as stored. -/
theorem login_never_writes (B : Bcrypt) (s : Store) (username password : Option String) :
    (login B s username password).2 = s ∧
      ((login B s username password).1.status = 200 →
        ∃ i a, User.findOne (byUsername username) s = some (i, a) ∧
          (login B s username password).1.body.response
            = .user a.username a._id a.accessToken) := by
  refine ⟨login_store B s username password, ?_⟩
  unfold login
  cases hf : User.findOne (byUsername username) s with
  | none => simp [credentialsDoNotMatch]
  | some r =>
    obtain ⟨i, a⟩ := r
    cases password with
    | none => simp [internalServerError]
    | some p =>
      by_cases hc : B.compareSync p a.password = true
      · simp only [hc, if_true]
        intro _
        exact ⟨i, a, rfl, rfl⟩
      · simp [hc, credentialsDoNotMatch]

/-- C10: for an account stored under username u whose hash was made from p, whose hash
bcrypt accepts for p, and whose accessToken is null: the login with u and p is answered
200 with success true and a null accessToken, and after any sequence of login requests
the collection is as before, the account still holds null, and no token string presented
to the gate is resolved to that account. -/
theorem login_after_logout_returns_null (B : Bcrypt) (s : Store) (u p salt : String) (i : Nat)
    (a : Account) (reqs : List Request) (t : String)
    (hfind : User.findOne (byUsername (some u)) s = some (i, a))
    (hhash : a.password = B.hashSync p salt)
    (hcmp : B.compareSync p (B.hashSync p salt) = true)
    (hnull : a.accessToken = none)
    (hlogins : reqs.all Request.isLogin = true) :
    (login B s (some u) (some p)).1.status = 200 ∧
      (login B s (some u) (some p)).1.body.success = true ∧
      (login B s (some u) (some p)).1.body.response = .user u a._id none ∧
      (login B s (some u) (some p)).2 = s ∧
      run B s reqs = s ∧
      (run B s reqs)[i]? = some a ∧
      ∀ b, User.findOne (byAccessToken (some t)) (run B s reqs) ≠ some (i, b) := by
  have hspec := findOne_some_spec hfind
  have hname : a.username = u := by simpa [byUsername] using hspec.1
  rw [run_logins B s reqs hlogins]
  refine ⟨?_, ?_, ?_, login_store B s _ _, rfl, hspec.2, ?_⟩
  · simp [login, hfind, hhash, hcmp, loggedIn]
  · simp [login, hfind, hhash, hcmp, loggedIn]
  · simp [login, hfind, hhash, hcmp, loggedIn, hname, hnull]
  · intro b hb
    have hb2 := findOne_some_spec hb
    rw [hspec.2] at hb2
    have hab : a = b := by simpa using hb2.2
    subst hab
    simp [byAccessToken, hnull] at hb2

theorem login_after_logout_returns_null_witness :
    (login toyBcrypt (run toyBcrypt [] bobRegisterLogout) (some "bob") (some "abcdef")).1.status
        = 200 ∧
      (login toyBcrypt (run toyBcrypt [] bobRegisterLogout) (some "bob")
        (some "abcdef")).1.body.success = true ∧
      (login toyBcrypt (run toyBcrypt [] bobRegisterLogout) (some "bob")
        (some "abcdef")).1.body.response = .user "bob" "id1" none ∧
      (login toyBcrypt (run toyBcrypt [] bobRegisterLogout) (some "bob") (some "abcdef")).2
        = run toyBcrypt [] bobRegisterLogout ∧
      run toyBcrypt (run toyBcrypt [] bobRegisterLogout) bobLogins
        = run toyBcrypt [] bobRegisterLogout ∧
      (run toyBcrypt (run toyBcrypt [] bobRegisterLogout) bobLogins)[0]?
        = some { _id := "id1", username := "bob", password := "$sabcdef",
                 accessToken := none } ∧
      ∀ b, User.findOne (byAccessToken (some (defaultAccessToken zeroDraw)))
        (run toyBcrypt (run toyBcrypt [] bobRegisterLogout) bobLogins) ≠ some (0, b) :=
  login_after_logout_returns_null toyBcrypt (run toyBcrypt [] bobRegisterLogout) "bob" "abcdef"
    "s" 0 { _id := "id1", username := "bob", password := "$sabcdef", accessToken := none }
    bobLogins (defaultAccessToken zeroDraw) (by decide) (by decide) (by decide) (by decide)
    (by decide)

end ArkiArt
